import Mathlib

/-!
Shallow embedding of the notion-cli core: the block flattener of
src/modules/notionUtils.js and the NotionWrapper facade of src/modules/notion.ts.

Modelling conventions:
* A `Block` models a Notion block together with the responses the asynchronous
  children-listing capability would give along the traversal: `fetchOk` records
  whether `client.blocks.children.list` on this block would succeed, and
  `children` holds the blocks it would return (in service order). The source
  tree is assumed acyclic by the remote data model, so this denotation is a
  finite tree.
* `payload` models the JavaScript field access `block[block.type]`: `none`
  when the key is absent, and its `rich_text` field is `none` when the payload
  carries no (truthy) rich-text array.
* JavaScript falsy-string fallback `x || y` on an optional string argument is
  embedded as `jsStringOr`.
-/

/-- One rich text object; `plain_text` is optional, matching `t.plain_text || ""`. -/
structure RichTextSegment where
  plain_text : Option String
  deriving Repr, DecidableEq

/-- The type-specific payload `block[block.type]`, which may expose a rich-text array. -/
structure BlockPayload where
  rich_text : Option (List RichTextSegment)
  deriving Repr, DecidableEq

/-- A Notion block, with the recorded outcome of listing its children. -/
inductive Block where
  | node (id : String) (type : String) (payload : Option BlockPayload)
      (has_children : Bool) (fetchOk : Bool) (children : List Block)

def Block.id : Block → String
  | .node i _ _ _ _ _ => i

def Block.type : Block → String
  | .node _ t _ _ _ _ => t

def Block.payload : Block → Option BlockPayload
  | .node _ _ p _ _ _ => p

def Block.has_children : Block → Bool
  | .node _ _ _ h _ _ => h

def Block.fetchOk : Block → Bool
  | .node _ _ _ _ f _ => f

def Block.children : Block → List Block
  | .node _ _ _ _ _ c => c

/-- Output record shape of src/types.ts `SimpleBlockType`. -/
structure SimpleBlockType where
  blockId : String
  text : String
  blockType : String
  parentBlockId : Option String
  deriving Repr, DecidableEq

/-- Function getPlainTextFromRichText of notionUtils.js: a missing array yields
the empty string, otherwise the plain texts of the segments are joined in order. -/
def getPlainTextFromRichText : Option (List RichTextSegment) → String
  | none => ""
  | some richText => String.join (richText.map (fun t => t.plain_text.getD ""))

/-- Function extractTextContent of notionUtils.js: rich text when the type
payload exposes it, otherwise the bracketed type tag. -/
def extractTextContent (b : Block) : String :=
  match b.payload with
  | some payload =>
    match payload.rich_text with
    | some richText => getPlainTextFromRichText (some richText)
    | none => "[" ++ b.type ++ "]"
  | none => "[" ++ b.type ++ "]"

/-- The single record pushed for a block (the object literal at lines 41-46 of
notionUtils.js). -/
def simpleOf (b : Block) (parentId : Option String) : SimpleBlockType :=
  { blockId := b.id
    text := extractTextContent b
    blockType := b.type
    parentBlockId := parentId }

mutual
/-- Function processBlockWithChildren of notionUtils.js: push the current record,
then, when the block declares children and the listing call succeeds, the
flattened children in order; a failed listing is treated as no children. -/
def processBlockWithChildren (b : Block) (parentId : Option String) : List SimpleBlockType :=
  match b with
  | .node i _ _ hc fok cs =>
    simpleOf b parentId ::
      (if hc then (if fok then processChildList cs i else []) else [])

/-- The loop over childrenResponse.results in processBlockWithChildren. -/
def processChildList (cs : List Block) (parentId : String) : List SimpleBlockType :=
  match cs with
  | [] => []
  | c :: rest => processBlockWithChildren c (some parentId) ++ processChildList rest parentId
end

/-- Function getTextFromBlock of notionUtils.js: flatten with the default
parentId of null. -/
def getTextFromBlock (b : Block) : List SimpleBlockType :=
  processBlockWithChildren b none

/-! The NotionWrapper facade of src/modules/notion.ts, in explicit
state-passing style. Each operation returns the facade state after the call,
the list of remote requests it issued (in order), and its result. The remote
service is an oracle of response functions; responses of operations whose
payload the client never inspects are an abstract type. -/

/-- Configuration record of src/types.ts. -/
structure NotionConfig where
  token : String
  pageId : String
  deriving Repr, DecidableEq

/-- The retrieved block as consumed by updateBlock, which reads only its type tag. -/
structure RetrievedBlock where
  type : String
  deriving Repr, DecidableEq

/-- The object text.content of a rich text item in a write request. -/
structure TextContentPayload where
  content : String
  deriving Repr, DecidableEq

/-- One rich text item of a write request. -/
structure RichTextItem where
  type : String
  text : TextContentPayload
  deriving Repr, DecidableEq

/-- The paragraph payload of a write request. -/
structure ParagraphPayload where
  rich_text : List RichTextItem
  deriving Repr, DecidableEq

/-- One new block sent by addText through blocks.children.append. -/
structure NewBlockSpec where
  object : String
  type : String
  paragraph : ParagraphPayload
  deriving Repr, DecidableEq

/-- A blocks.children.append request. -/
structure AppendRequest where
  block_id : String
  children : List NewBlockSpec
  deriving Repr, DecidableEq

/-- A blocks.update request. -/
structure UpdateRequest where
  block_id : String
  paragraph : ParagraphPayload
  deriving Repr, DecidableEq

/-- A remote request issued by the facade, with its payload. -/
inductive RemoteCall where
  | retrievePage (pageId : String)
  | appendChildren (req : AppendRequest)
  | deleteBlock (blockId : String)
  | retrieveBlock (blockId : String)
  | updateBlock (req : UpdateRequest)
  | listChildren (blockId : String)
  deriving Repr, DecidableEq

/-- The remote document service as an oracle: one response function per
endpoint the facade uses. -/
structure RemoteService (ρ : Type) where
  retrievePage : String → Except String ρ
  appendChildren : AppendRequest → Except String ρ
  delete : String → Except String ρ
  retrieve : String → Except String RetrievedBlock
  update : UpdateRequest → Except String ρ
  listChildren : String → Except String (List Block)

/-- The mutable fields of class NotionWrapper: the client handle (identified by
the auth token it was built from) and the configured page id. -/
structure NotionWrapper where
  client : String
  pageId : String
  deriving Repr, DecidableEq

/-- Result of one facade operation: facade state afterwards, remote requests
issued in order, and the returned value. -/
structure OpResult (α : Type) where
  state : NotionWrapper
  calls : List RemoteCall
  value : α

/-- The constructor of NotionWrapper. -/
def NotionWrapper.create (config : NotionConfig) : NotionWrapper :=
  { client := config.token, pageId := config.pageId }

/-- Method setPageId. -/
def NotionWrapper.setPageId (w : NotionWrapper) (pageId : String) : OpResult Unit :=
  { state := { w with pageId := pageId }, calls := [], value := () }

/-- Method getPageId. -/
def NotionWrapper.getPageId (w : NotionWrapper) : OpResult String :=
  { state := w, calls := [], value := w.pageId }

/-- Method getPage: one pages.retrieve call on the configured page id; failures
are logged and rethrown unchanged. -/
def NotionWrapper.getPage {ρ : Type} (w : NotionWrapper) (remote : RemoteService ρ) :
    OpResult (Except String ρ) :=
  { state := w, calls := [.retrievePage w.pageId], value := remote.retrievePage w.pageId }

/-- JavaScript truthiness fallback v || dflt for an optional string: both an
absent value and the empty string fall back to the default. -/
def jsStringOr (v : Option String) (dflt : String) : String :=
  match v with
  | none => dflt
  | some s => if s = "" then dflt else s

/-- The children array built by addText: a single paragraph block whose one
rich text item carries the given text verbatim. -/
def addTextChildren (text : String) : List NewBlockSpec :=
  [{ object := "block", type := "paragraph",
     paragraph := { rich_text := [{ type := "text", text := { content := text } }] } }]

/-- Method addText: append one paragraph child under parentBlock when that is
truthy, else under the configured page id. -/
def NotionWrapper.addText {ρ : Type} (w : NotionWrapper) (remote : RemoteService ρ)
    (text : String) (parentBlock : Option String) : OpResult (Except String ρ) :=
  let blockId := jsStringOr parentBlock w.pageId
  let req : AppendRequest := { block_id := blockId, children := addTextChildren text }
  { state := w, calls := [.appendChildren req], value := remote.appendChildren req }

/-- Method deleteBlock: one blocks.delete call. -/
def NotionWrapper.deleteBlock {ρ : Type} (w : NotionWrapper) (remote : RemoteService ρ)
    (blockId : String) : OpResult (Except String ρ) :=
  { state := w, calls := [.deleteBlock blockId], value := remote.delete blockId }

/-- The console.warn text produced for a non-paragraph update target. -/
def unsupportedTypeWarning (t : String) : String :=
  "Block type " ++ t ++
    " is not supported for text updates. Only paragraph blocks can be updated."

/-- The paragraph payload sent by updateBlock and by addText. -/
def updateParagraphPayload (text : String) : ParagraphPayload :=
  { rich_text := [{ type := "text", text := { content := text } }] }

/-- Result of updateBlock, which can also produce warnings. -/
structure UpdateOutcome (ρ : Type) where
  state : NotionWrapper
  calls : List RemoteCall
  warnings : List String
  value : Except String ρ

/-- Method updateBlock: retrieve the target block; if its type is not
paragraph, warn but continue; then send the update request regardless and
return the remote response. A failure of the retrieve is rethrown before any
update request is sent. -/
def NotionWrapper.updateBlock {ρ : Type} (w : NotionWrapper) (remote : RemoteService ρ)
    (blockId : String) (text : String) : UpdateOutcome ρ :=
  match remote.retrieve blockId with
  | .error e =>
    { state := w, calls := [.retrieveBlock blockId], warnings := [], value := .error e }
  | .ok blockInfo =>
    let warnings :=
      if blockInfo.type ≠ "paragraph" then [unsupportedTypeWarning blockInfo.type] else []
    let req : UpdateRequest := { block_id := blockId, paragraph := updateParagraphPayload text }
    { state := w, calls := [.retrieveBlock blockId, .updateBlock req],
      warnings := warnings, value := remote.update req }

mutual
/-- The children-listing requests issued while flattening one block: one for
the block itself when it declares children, then, when that call succeeded,
those of the children in order. -/
def flattenCalls : Block → List RemoteCall
  | .node i _ _ hc fok cs =>
    if hc then .listChildren i :: (if fok then flattenCallsList cs else []) else []

/-- The children-listing requests issued while flattening a list of blocks. -/
def flattenCallsList : List Block → List RemoteCall
  | [] => []
  | c :: rest => flattenCalls c ++ flattenCallsList rest
end

/-- Method getPageBlocks: one children-listing call on the configured page id,
then each top-level block flattened with getTextFromBlock, results concatenated
in order; a failure of the top-level listing is rethrown. -/
def NotionWrapper.getPageBlocks {ρ : Type} (w : NotionWrapper) (remote : RemoteService ρ) :
    OpResult (Except String (List SimpleBlockType)) :=
  match remote.listChildren w.pageId with
  | .error e => { state := w, calls := [.listChildren w.pageId], value := .error e }
  | .ok results =>
    { state := w
      calls := .listChildren w.pageId :: flattenCallsList results
      value := .ok ((results.map (fun b => getTextFromBlock b)).flatten) }

/-! Unfolding equations and traversal lemmas for the flattener. -/

theorem processChildList_eq_flatten (cs : List Block) (p : String) :
    processChildList cs p = (cs.map (fun c => processBlockWithChildren c (some p))).flatten := by
  induction cs with
  | nil => simp [processChildList]
  | cons c rest ih => simp [processChildList, ih]

theorem processBlockWithChildren_eq (b : Block) (pid : Option String) :
    processBlockWithChildren b pid =
      simpleOf b pid ::
        (if b.has_children then
          (if b.fetchOk then
            (b.children.map (fun c => processBlockWithChildren c (some b.id))).flatten
          else [])
        else []) := by
  cases b with
  | node i ty pl hc fok cs =>
    simp only [processBlockWithChildren, processChildList_eq_flatten, Block.has_children,
      Block.fetchOk, Block.children, Block.id]

/-- Ids of the records of a list, most recent first, pushed onto an accumulator. -/
def pushIds : List SimpleBlockType → List String → List String
  | [], done => done
  | r :: rest, done => pushIds rest (r.blockId :: done)

/-- Whether the parent id of a record, when present, was already emitted. -/
def parentSeen (done : List String) (r : SimpleBlockType) : Bool :=
  match r.parentBlockId with
  | none => true
  | some p => decide (p ∈ done)

/-- Each record of the list points, when it has a parent id, at an id in done
or at the id of an earlier record of the list. -/
def chainFromB (done : List String) : List SimpleBlockType → Bool
  | [] => true
  | r :: rest => parentSeen done r && chainFromB (r.blockId :: done) rest

theorem mem_pushIds (l : List SimpleBlockType) (done : List String) (x : String)
    (hx : x ∈ done) : x ∈ pushIds l done := by
  induction l generalizing done with
  | nil => simpa [pushIds] using hx
  | cons r rest ih =>
    simp only [pushIds]
    exact ih _ (List.mem_cons_of_mem _ hx)

theorem chainFromB_append (l1 l2 : List SimpleBlockType) (done : List String) :
    chainFromB done (l1 ++ l2) =
      (chainFromB done l1 && chainFromB (pushIds l1 done) l2) := by
  induction l1 generalizing done with
  | nil => simp [chainFromB, pushIds]
  | cons r rest ih =>
    simp only [List.cons_append, List.append_eq, chainFromB, pushIds, ih, Bool.and_assoc]

theorem chainFromB_processBlock :
    ∀ (b : Block) (pid : Option String) (done : List String),
      (∀ p, pid = some p → p ∈ done) →
      chainFromB done (processBlockWithChildren b pid) = true := by
  refine processBlockWithChildren.induct
    (fun b pid => ∀ done, (∀ p, pid = some p → p ∈ done) →
      chainFromB done (processBlockWithChildren b pid) = true)
    (fun cs q => ∀ done, q ∈ done → chainFromB done (processChildList cs q) = true)
    ?_ ?_ ?_
  · intro parentId i ty pl hc fok cs ih done hdone
    simp only [processBlockWithChildren, chainFromB, simpleOf, Block.id, Block.type,
      parentSeen, Bool.and_eq_true]
    constructor
    · cases parentId with
      | none => rfl
      | some p => simpa using hdone p rfl
    · cases hc
      · simp [chainFromB]
      · cases fok
        · simp [chainFromB]
        · simpa using ih (i :: done) (List.mem_cons_self i done)
  · intro q done hq
    simp [processChildList, chainFromB]
  · intro q c rest ih1 ih2 done hq
    simp only [processChildList]
    rw [chainFromB_append, Bool.and_eq_true]
    refine ⟨ih1 done ?_, ih2 _ (mem_pushIds _ _ _ hq)⟩
    intro p hp
    cases hp
    exact hq

theorem processBlock_mem_shape :
    ∀ (b : Block) (pid : Option String) (r : SimpleBlockType),
      r ∈ processBlockWithChildren b pid →
      r = simpleOf b pid ∨ ∃ x, r.parentBlockId = some x := by
  refine processBlockWithChildren.induct
    (fun b pid => ∀ r, r ∈ processBlockWithChildren b pid →
      r = simpleOf b pid ∨ ∃ x, r.parentBlockId = some x)
    (fun cs q => ∀ r, r ∈ processChildList cs q → ∃ x, r.parentBlockId = some x)
    ?_ ?_ ?_
  · intro parentId i ty pl hc fok cs ih r hr
    simp only [processBlockWithChildren, List.mem_cons] at hr
    rcases hr with heq | hbranch
    · exact Or.inl heq
    · right
      cases hc
      · simp at hbranch
      · cases fok
        · simp at hbranch
        · exact ih r (by simpa using hbranch)
  · intro q r hr
    simp [processChildList] at hr
  · intro q c rest ih1 ih2 r hr
    simp only [processChildList, List.mem_append] at hr
    rcases hr with hl | hrr
    · rcases ih1 r hl with heq | hex
      · exact ⟨q, by rw [heq]; rfl⟩
      · exact hex
    · exact ih2 r hrr

/-- Records whose parent id, when present, equals the block id of an earlier
record of the same list. -/
def parentsPrecede (l : List SimpleBlockType) : Prop :=
  ∀ (i : Nat) (hi : i < l.length) (p : String),
    (l[i]).parentBlockId = some p →
    ∃ (j : Nat) (hj : j < l.length), j < i ∧ (l[j]).blockId = p

theorem chainFromB_precede :
    ∀ (l : List SimpleBlockType) (done : List String),
      chainFromB done l = true →
      ∀ (i : Nat) (hi : i < l.length) (p : String),
        (l[i]).parentBlockId = some p →
        p ∈ done ∨ ∃ (j : Nat) (hj : j < l.length), j < i ∧ (l[j]).blockId = p := by
  intro l
  induction l with
  | nil =>
    intro done h i hi
    exact absurd hi (by simp)
  | cons r rest ih =>
    intro done h i hi p hp
    rw [chainFromB, Bool.and_eq_true] at h
    obtain ⟨h1, h2⟩ := h
    cases i with
    | zero =>
      left
      simp only [List.getElem_cons_zero] at hp
      simp only [parentSeen, hp, decide_eq_true_eq] at h1
      exact h1
    | succ k =>
      have hk : k < rest.length := by
        simpa using Nat.lt_of_succ_lt_succ hi
      have hres := ih (r.blockId :: done) h2 k hk p (by simpa using hp)
      rcases hres with hmem | ⟨j, hj, hlt, hid⟩
      · rcases List.mem_cons.mp hmem with heq | hmem2
        · right
          exact ⟨0, by simp, Nat.succ_pos k, by simpa using heq.symm⟩
        · left
          exact hmem2
      · right
        refine ⟨j + 1, by simpa using Nat.succ_lt_succ hj, Nat.succ_lt_succ hlt, ?_⟩
        simpa using hid

theorem parentsPrecede_of_chain (l : List SimpleBlockType)
    (h : chainFromB [] l = true) : parentsPrecede l := by
  intro i hi p hp
  rcases chainFromB_precede l [] h i hi p hp with hmem | hex
  · simp at hmem
  · exact hex

theorem chainFromB_flattenTops :
    ∀ (tops : List Block) (done : List String),
      chainFromB done ((tops.map (fun b => getTextFromBlock b)).flatten) = true := by
  intro tops
  induction tops with
  | nil =>
    intro done
    simp [chainFromB]
  | cons t rest ih =>
    intro done
    simp only [List.map_cons, List.flatten_cons]
    rw [chainFromB_append, Bool.and_eq_true]
    exact ⟨chainFromB_processBlock t none done (by intro p hp; cases hp), ih _⟩

/-! Concrete fixtures: the end-to-end scenario of the specification (page P
with top-level paragraphs A and B, and C a child of B), a block whose children
listing fails, and concrete remote oracles. -/

def blockC : Block :=
  .node "C" "paragraph" (some { rich_text := some [{ plain_text := some "Sub" }] }) false true []

def blockB : Block :=
  .node "B" "paragraph" (some { rich_text := some [{ plain_text := some "Details" }] }) true true
    [blockC]

def blockA : Block :=
  .node "A" "paragraph" (some { rich_text := some [{ plain_text := some "Intro" }] }) false true []

def recA : SimpleBlockType :=
  { blockId := "A", text := "Intro", blockType := "paragraph", parentBlockId := none }

def recB : SimpleBlockType :=
  { blockId := "B", text := "Details", blockType := "paragraph", parentBlockId := none }

def recC : SimpleBlockType :=
  { blockId := "C", text := "Sub", blockType := "paragraph", parentBlockId := some "B" }

def pageWrapper : NotionWrapper := { client := "secret-token", pageId := "P" }

def pageRemote : RemoteService Unit :=
  { retrievePage := fun _ => Except.error "unused"
    appendChildren := fun _ => Except.error "unused"
    delete := fun _ => Except.error "unused"
    retrieve := fun _ => Except.error "unused"
    update := fun _ => Except.error "unused"
    listChildren := fun blockId =>
      if blockId = "P" then Except.ok [blockA, blockB] else Except.error "unknown block" }

/-- A block that declares children but whose children listing fails. -/
def blockFail : Block :=
  .node "F" "toggle" none true false [blockC]

/-- A parent whose children listing succeeds and whose middle child is the
failing block. -/
def blockFailParent : Block :=
  .node "G" "toggle" none true true [blockA, blockFail, blockC]

/-- C1: in every sequence produced by the flattener at top level and by
getPageBlocks, a record with a defined parentBlockId is preceded earlier in
the sequence by a record whose blockId equals that parent id, and a record
lacking a parent id can only be the record of a block flattened with no
parent supplied (the top-level case). -/
theorem claim_C1_parent_appears_earlier {ρ : Type} (b : Block)
    (w : NotionWrapper) (remote : RemoteService ρ) (l : List SimpleBlockType)
    (hok : (NotionWrapper.getPageBlocks w remote).value = Except.ok l) :
    parentsPrecede (processBlockWithChildren b none) ∧
    (∀ r ∈ processBlockWithChildren b none, r.parentBlockId = none → r = simpleOf b none) ∧
    parentsPrecede l ∧
    (∀ r ∈ l, r.parentBlockId = none →
      ∃ tops, remote.listChildren w.pageId = Except.ok tops ∧
        ∃ t ∈ tops, r = simpleOf t none) := by
  have hshape : ∀ (b : Block) (r : SimpleBlockType), r ∈ processBlockWithChildren b none →
      r.parentBlockId = none → r = simpleOf b none := by
    intro b r hr hnone
    rcases processBlock_mem_shape b none r hr with heq | ⟨x, hx⟩
    · exact heq
    · rw [hnone] at hx
      cases hx
  refine ⟨?_, fun r hr => hshape b r hr, ?_, ?_⟩
  · exact parentsPrecede_of_chain _
      (chainFromB_processBlock b none [] (by intro p hp; cases hp))
  all_goals
    cases hlist : remote.listChildren w.pageId with
    | error e =>
      rw [NotionWrapper.getPageBlocks, hlist] at hok
      simp at hok
    | ok tops =>
      rw [NotionWrapper.getPageBlocks, hlist] at hok
      simp only [Except.ok.injEq] at hok
      subst hok
      first
      | exact parentsPrecede_of_chain _ (chainFromB_flattenTops tops [])
      | · intro r hr hnone
          rcases List.mem_flatten.mp hr with ⟨sub, hsub, hrsub⟩
          rcases List.mem_map.mp hsub with ⟨t, ht, hteq⟩
          subst hteq
          exact ⟨tops, rfl, t, ht, hshape t r hrsub hnone⟩

/-- C1 witness: the claim instantiated on the concrete page scenario. -/
theorem claim_C1_witness : parentsPrecede [recA, recB, recC] :=
  (claim_C1_parent_appears_earlier blockB pageWrapper pageRemote
    [recA, recB, recC] (by rfl)).2.2.1

/-- C2: for a block that declares children and whose children listing
succeeds, the flattened output is its own record first, followed by the
concatenation, in service order, of the full flattened sequence of each child
computed with the parent id set to the id of the current block. -/
theorem claim_C2_preorder_flatten (b : Block) (pid : Option String)
    (hc : b.has_children = true) (hok : b.fetchOk = true) :
    processBlockWithChildren b pid =
      simpleOf b pid ::
        (b.children.map (fun c => processBlockWithChildren c (some b.id))).flatten := by
  rw [processBlockWithChildren_eq]
  simp [hc, hok]

/-- C2 witness: the claim instantiated on the block with one nested child. -/
theorem claim_C2_witness :
    processBlockWithChildren blockB none =
      simpleOf blockB none ::
        (blockB.children.map (fun c => processBlockWithChildren c (some blockB.id))).flatten :=
  claim_C2_preorder_flatten blockB none (by rfl) (by rfl)

/-- C6: flattening a block that declares no children yields exactly one
record, whose parentBlockId is the caller-supplied parent id, absent when no
parent is supplied. -/
theorem claim_C6_childless_single_record (b : Block) (pid : Option String)
    (h : b.has_children = false) :
    processBlockWithChildren b pid = [simpleOf b pid] ∧
    (simpleOf b pid).parentBlockId = pid := by
  constructor
  · rw [processBlockWithChildren_eq, h]
    simp
  · rfl

/-- C6 witness: the claim instantiated on the childless block A. -/
theorem claim_C6_witness :
    processBlockWithChildren blockA none = [simpleOf blockA none] ∧
    (simpleOf blockA none).parentBlockId = none :=
  claim_C6_childless_single_record blockA none (by rfl)

/-- C4: when the children listing of a block fails, that block contributes
exactly its own record and nothing below it, and inside a parent whose
listing succeeded the siblings before and after it are still flattened in
full, so the listing is not aborted. -/
theorem claim_C4_partial_failure (b parent : Block) (pid ppid : Option String)
    (hfail : b.fetchOk = false)
    (pre post : List Block)
    (hkids : parent.children = pre ++ b :: post)
    (hhc : parent.has_children = true) (hpok : parent.fetchOk = true) :
    processBlockWithChildren b pid = [simpleOf b pid] ∧
    processBlockWithChildren parent ppid =
      simpleOf parent ppid ::
        ((pre.map (fun c => processBlockWithChildren c (some parent.id))).flatten ++
          [simpleOf b (some parent.id)] ++
          (post.map (fun c => processBlockWithChildren c (some parent.id))).flatten) := by
  have hb : ∀ q, processBlockWithChildren b q = [simpleOf b q] := by
    intro q
    rw [processBlockWithChildren_eq, hfail]
    cases hbc : b.has_children <;> simp
  refine ⟨hb pid, ?_⟩
  rw [processBlockWithChildren_eq]
  simp [hhc, hpok, hkids, hb]

/-- C4 witness: the claim instantiated on a parent whose middle child has a
failing children listing. -/
theorem claim_C4_witness :
    processBlockWithChildren blockFail none = [simpleOf blockFail none] ∧
    processBlockWithChildren blockFailParent none =
      simpleOf blockFailParent none ::
        (([blockA].map (fun c => processBlockWithChildren c (some blockFailParent.id))).flatten ++
          [simpleOf blockFail (some blockFailParent.id)] ++
          ([blockC].map (fun c => processBlockWithChildren c (some blockFailParent.id))).flatten) :=
  claim_C4_partial_failure blockFail blockFailParent none none (by rfl)
    [blockA] [blockC] (by rfl) (by rfl) (by rfl)

/-- C3: the plain text projection of a block concatenates the plain text of
its rich text segments in order when the type payload exposes them, and is
otherwise the type tag in brackets; in particular segments "Hello, " and
"world" join to "Hello, world" and an image block with no rich text payload
yields "[image]". -/
theorem claim_C3_text_projection (b : Block) :
    (∀ payload segs, b.payload = some payload → payload.rich_text = some segs →
      extractTextContent b = String.join (segs.map (fun t => t.plain_text.getD ""))) ∧
    (b.payload.bind BlockPayload.rich_text = none →
      extractTextContent b = "[" ++ b.type ++ "]") ∧
    extractTextContent (Block.node "h" "paragraph"
      (some { rich_text := some [{ plain_text := some "Hello, " },
                                 { plain_text := some "world" }] })
      false true []) = "Hello, world" ∧
    extractTextContent (Block.node "i" "image" none false true []) = "[image]" := by
  refine ⟨?_, ?_, by rfl, by rfl⟩
  · intro payload segs hp hrt
    simp [extractTextContent, hp, hrt, getPlainTextFromRichText]
  · intro h
    cases hp : b.payload with
    | none => simp [extractTextContent, hp]
    | some payload =>
      rw [hp] at h
      simp only [Option.some_bind] at h
      simp [extractTextContent, hp, h]

/-- C5: getPageBlocks lists the configured page once, flattens each top-level
block with no parent id, and concatenates the results in order; on the
specification scenario (page P with paragraphs A, B and C a child of B) it
returns the records of A, B and C, with C pointing at B and A, B parentless. -/
theorem claim_C5_page_blocks {ρ : Type} (w : NotionWrapper) (remote : RemoteService ρ)
    (tops : List Block) (hlist : remote.listChildren w.pageId = Except.ok tops) :
    (NotionWrapper.getPageBlocks w remote).value =
      Except.ok ((tops.map (fun t => processBlockWithChildren t none)).flatten) ∧
    (NotionWrapper.getPageBlocks w remote).calls =
      RemoteCall.listChildren w.pageId :: flattenCallsList tops ∧
    (NotionWrapper.getPageBlocks pageWrapper pageRemote).value =
      Except.ok [recA, recB, recC] := by
  refine ⟨?_, ?_, by rfl⟩
  all_goals rw [NotionWrapper.getPageBlocks, hlist]
  all_goals simp [getTextFromBlock]

/-- C5 witness: the claim instantiated on the concrete page scenario. -/
theorem claim_C5_witness :
    (NotionWrapper.getPageBlocks pageWrapper pageRemote).value =
      Except.ok (([blockA, blockB].map (fun t => processBlockWithChildren t none)).flatten) :=
  (claim_C5_page_blocks pageWrapper pageRemote [blockA, blockB] (by rfl)).1

/-- C7: when the retrieved target of updateBlock is not a paragraph, the
operation still proceeds: exactly one warning is produced, the update request
is nevertheless sent, and the returned value is whatever the remote service
answers, so the warning alone is never fatal. -/
theorem claim_C7_warn_and_proceed {ρ : Type} (w : NotionWrapper) (remote : RemoteService ρ)
    (blockId text : String) (info : RetrievedBlock)
    (hret : remote.retrieve blockId = Except.ok info)
    (htype : info.type ≠ "paragraph") :
    (NotionWrapper.updateBlock w remote blockId text).warnings =
      [unsupportedTypeWarning info.type] ∧
    (NotionWrapper.updateBlock w remote blockId text).calls =
      [RemoteCall.retrieveBlock blockId,
        RemoteCall.updateBlock { block_id := blockId, paragraph := updateParagraphPayload text }] ∧
    (NotionWrapper.updateBlock w remote blockId text).value =
      remote.update { block_id := blockId, paragraph := updateParagraphPayload text } := by
  rw [NotionWrapper.updateBlock, hret]
  simp [htype]

/-- A remote oracle whose block retrieval always answers a heading block. -/
def headingRemote : RemoteService Unit :=
  { retrievePage := fun _ => Except.error "unused"
    appendChildren := fun _ => Except.error "unused"
    delete := fun _ => Except.error "unused"
    retrieve := fun _ => Except.ok { type := "heading_1" }
    update := fun _ => Except.ok ()
    listChildren := fun _ => Except.error "unused" }

/-- C7 witness: the claim instantiated on an update of a heading block. -/
theorem claim_C7_witness :
    (NotionWrapper.updateBlock pageWrapper headingRemote "X" "new text").warnings =
      [unsupportedTypeWarning "heading_1"] :=
  (claim_C7_warn_and_proceed pageWrapper headingRemote "X" "new text"
    { type := "heading_1" } (by rfl) (by decide)).1

/-- C8: the only facade state is the configured page id: setPageId and
getPageId issue no remote request, getPageId returns the id most recently set
(at construction or through setPageId), setPageId changes only the page id
field, and no other facade operation changes the facade state at all. -/
theorem claim_C8_facade_state (cfg : NotionConfig) (w : NotionWrapper) {ρ : Type}
    (remote : RemoteService ρ) (pid text bid : String) (pb : Option String) :
    (NotionWrapper.setPageId w pid).state = { client := w.client, pageId := pid } ∧
    (NotionWrapper.setPageId w pid).calls = [] ∧
    (NotionWrapper.getPageId w).calls = [] ∧
    (NotionWrapper.getPageId w).state = w ∧
    (NotionWrapper.getPageId w).value = w.pageId ∧
    (NotionWrapper.getPageId (NotionWrapper.setPageId w pid).state).value = pid ∧
    (NotionWrapper.getPageId (NotionWrapper.create cfg)).value = cfg.pageId ∧
    (NotionWrapper.getPage w remote).state = w ∧
    (NotionWrapper.addText w remote text pb).state = w ∧
    (NotionWrapper.deleteBlock w remote bid).state = w ∧
    (NotionWrapper.updateBlock w remote bid text).state = w ∧
    (NotionWrapper.getPageBlocks w remote).state = w := by
  refine ⟨rfl, rfl, rfl, rfl, rfl, rfl, rfl, rfl, rfl, rfl, ?_, ?_⟩
  · rw [NotionWrapper.updateBlock]
    cases remote.retrieve bid <;> rfl
  · rw [NotionWrapper.getPageBlocks]
    cases remote.listChildren w.pageId <;> rfl

/-- C9: an empty-string parent argument to addText is treated like an omitted
parent: the JavaScript truthiness fallback makes both append under the
currently configured page id. -/
theorem claim_C9_empty_parent_fallback {ρ : Type} (w : NotionWrapper)
    (remote : RemoteService ρ) (text : String) :
    NotionWrapper.addText w remote text (some "") =
      NotionWrapper.addText w remote text none ∧
    (NotionWrapper.addText w remote text (some "")).calls =
      [RemoteCall.appendChildren { block_id := w.pageId, children := addTextChildren text }] := by
  constructor <;> rfl

/-- C10: addText issues exactly one append request, whose children array is a
single block of type paragraph holding one rich text item whose text content
is the input string unchanged, for every parent argument. -/
theorem claim_C10_single_paragraph_request {ρ : Type} (w : NotionWrapper)
    (remote : RemoteService ρ) (text : String) (parentBlock : Option String) :
    ∃ req : AppendRequest,
      NotionWrapper.addText w remote text parentBlock =
        { state := w, calls := [RemoteCall.appendChildren req],
          value := remote.appendChildren req } ∧
      req.children =
        [{ object := "block", type := "paragraph",
           paragraph := { rich_text := [{ type := "text", text := { content := text } }] } }] :=
  ⟨{ block_id := jsStringOr parentBlock w.pageId, children := addTextChildren text }, rfl, rfl⟩
